import Mathlib

/-!
Verification of the core of the j-u-p-iter/repl package: the incremental
multi-line evaluation protocol of an interactive REPL.

Shallow embedding of the four source files:
  * `src/src/Repl.ts` — the `Repl` class: `isRecoverableError`, `evaluateCode`,
    `startReplServer`, `registerCustomMethods`, `run`, `addMethod`;
  * `src/unnamed/part_000` — an earlier variant of the `Repl` class with its own
    `isRecoverableError` and `evaluateCode`;
  * `src/unnamed/part_002` — the `Compiler` class wrapping an injected compiler
    and the external `processTopLevelAwait` rewrite;
  * `src/unnamed/part_001` — bootstrap glue (out of the modelled core).

External collaborators (the injected compiler, the `vm` sandbox, the
`node-repl-await` rewrite) are modelled as function parameters; machine-level
JavaScript details that the code observes (falsy strings under `||`, the
`undefined` value of an unassigned variable) are modelled explicitly.
-/

namespace Repl

/-- Observable shape of a thrown JavaScript error: its `name` and `message`
fields, which are the only fields the REPL core inspects. -/
structure JSError where
  name : String
  message : String
deriving DecidableEq, Repr

/-- From `src/src/Repl.ts` lines 60-66: `isRecoverableError` returns, when
`error.name === "SyntaxError"`, the result of testing the anchored regex
`/^(Unexpected end of input|Unexpected token)/` against `error.message`
(an anchored alternation of two literals, i.e. a two-pattern prefix test),
and `false` for every other name. -/
def isRecoverableError (error : JSError) : Bool :=
  if error.name = "SyntaxError" then
    error.message.startsWith "Unexpected end of input" ||
      error.message.startsWith "Unexpected token"
  else
    false

/-- From `src/unnamed/part_000` lines 21-27: the earlier variant of the
classifier, embedded separately so the two can be compared. -/
def isRecoverableError000 (error : JSError) : Bool :=
  if error.name = "SyntaxError" then
    error.message.startsWith "Unexpected end of input" ||
      error.message.startsWith "Unexpected token"
  else
    false

/-! ## The Compiler class (src/unnamed/part_002)

`processTopLevelAwait` comes from the external package `node-repl-await`:
it returns the rewritten source when the input contains a top-level `await`
and `null` otherwise. It is a collaborator, passed as a parameter
`pta : String → Option String`, with `none` standing for `null`. -/

/-- JavaScript `a || b` where `a` is a string or `null`: `null` and the empty
string are falsy, every other string is returned as is. -/
def jsOr (a : Option String) (b : String) : String :=
  match a with
  | none => b
  | some s => if s = "" then b else s

/-- Line 7 of `src/unnamed/part_002`: the statement-transform step
`processTopLevelAwait(code) || code`, producing the text handed to the
injected compiler. -/
def statementTransform (pta : String → Option String) (code : String) : String :=
  jsOr (pta code) code

/-- From `src/unnamed/part_002` lines 6-10: `Compiler.compile` computes
`resultCode = processTopLevelAwait(code) || code` and then returns
`tsCompiler.compile(fileName, resultCode)`. The injected compiler is the
parameter `tsCompile`; its result type is abstract. -/
def compilerCompile {β : Type} (pta : String → Option String)
    (tsCompile : String → String → β) (fileName code : String) : β :=
  tsCompile fileName (jsOr (pta code) code)

/-! ## The evaluation engine

`evaluateCode` (src/src/Repl.ts lines 72-94) runs
`compiler.compile(fileName, code)` and then `vm.runInThisContext` inside a
`try`, classifies a caught error, and invokes `callback` accordingly.
We model

  * the shared execution context (the JavaScript global that
    `vm.runInThisContext` executes against, selected by `useGlobal: true`)
    as an insertion-ordered association list of bindings;
  * the sandbox as a collaborator returning a result-or-thrown-error together
    with the possibly mutated context (partial mutations persist on a throw);
  * each `callback(...)` invocation as an emitted `CallbackCall`, so that the
    number and the payload of the invocations are part of the meaning of the
    function. -/

/-- Shared execution context: name-to-value bindings of the JS global. -/
abbrev Ctx (α : Type) := List (String × α)

/-- First-match lookup of a key, as JS property access reads a binding. -/
def lookupA {β : Type} : List (String × β) → String → Option β
  | [], _ => none
  | (k, v) :: rest, key => if k = key then some v else lookupA rest key

/-- JS object property assignment `obj[k] = v` on an insertion-ordered
association list: overwrite the existing entry in place, else append. -/
def setKey {β : Type} : List (String × β) → String → β → List (String × β)
  | [], key, v => [(key, v)]
  | (k, w) :: rest, key, v =>
      if k = key then (key, v) :: rest else (k, w) :: setKey rest key v

/-- Outcome of one sandbox execution: the produced value or the thrown error,
together with the context after the run (mutations persist even on a throw). -/
structure ExecResult (α : Type) where
  result : Except JSError α
  ctx : Ctx α

/-- One `callback(...)` invocation made by an eval function.

  * `recoverable e` — `callback(new Recoverable(error), ...)`;
  * `failure e` — `callback(error, null)`;
  * `success v` — `callback(null, result)`, where `v = none` models a
    `result` variable that was never assigned (JS `undefined`). -/
inductive CallbackCall (α : Type) where
  | recoverable (e : JSError)
  | failure (e : JSError)
  | success (v : Option α)
deriving DecidableEq, Repr

/-- From `src/src/Repl.ts` lines 72-94: the eval function. `compile` is
`this.compiler.compile` (it may throw a compile diagnostic), `run` is
`vm.runInThisContext` against the shared global `ctx`. Returns the list of
`callback` invocations the body performs, in order, and the context after
the turn. The `try` covers both the compile and the run; the `catch` calls
`callback(new Recoverable(error), null)` and returns when the classifier
accepts the error, otherwise calls `callback(error, null)` and returns; on
no throw the final statement calls `callback(null, result)`. -/
def evaluateCode {α : Type} (compile : String → String → Except JSError String)
    (run : String → Ctx α → ExecResult α)
    (fileName code : String) (ctx : Ctx α) : List (CallbackCall α) × Ctx α :=
  match compile fileName code with
  | .error e =>
      if isRecoverableError e then ([.recoverable e], ctx)
      else ([.failure e], ctx)
  | .ok compiledCode =>
      match run compiledCode ctx with
      | ⟨.error e, ctx₂⟩ =>
          if isRecoverableError e then ([.recoverable e], ctx₂)
          else ([.failure e], ctx₂)
      | ⟨.ok v, ctx₂⟩ => ([.success (some v)], ctx₂)

/-- From `src/unnamed/part_000` lines 33-50: the earlier eval function. There
is no compile step (`vm.runInThisContext(code)` runs the raw input), and the
`catch` block returns only on the recoverable branch: on a non-recoverable
error control falls through the `catch` to the final `callback(null, result)`
with `result` still unassigned, i.e. `callback(null, undefined)`. -/
def evaluateCode000 {α : Type} (run : String → Ctx α → ExecResult α)
    (code : String) (ctx : Ctx α) : List (CallbackCall α) × Ctx α :=
  match run code ctx with
  | ⟨.error e, ctx₂⟩ =>
      if isRecoverableError000 e then ([.recoverable e], ctx₂)
      else ([.success none], ctx₂)
  | ⟨.ok v, ctx₂⟩ => ([.success (some v)], ctx₂)

/-- The session loop: `startReplServer` installs `evaluateCode` as the eval
function of the underlying REPL server, which then applies it to each
submitted input in order. With `useGlobal: true` every turn executes against
the same shared global; the loop threads the context a turn leaves into the
next turn and never builds a fresh one. -/
def runTurns {α : Type} (compile : String → String → Except JSError String)
    (run : String → Ctx α → ExecResult α)
    (fileName : String) : List String → Ctx α → Ctx α
  | [], ctx => ctx
  | code :: rest, ctx =>
      runTurns compile run fileName rest (evaluateCode compile run fileName code ctx).2

/-! ## The session facade and the custom-method registry (src/src/Repl.ts) -/

/-- One entry of the `customMethods` registry: the pair stored by `addMethod`. -/
structure MethodEntry (H O : Type) where
  handler : H
  options : O
deriving DecidableEq, Repr

/-- Observable state of a `Repl` instance. `customMethods` is the private
registry object; `context` holds the bindings assigned onto
`this.server.context` (empty before `run`, since the server does not exist
yet); `serverStarted` records that `startReplServer` ran; `commands` records
the dot-commands defined on the server. The context stores, for each bound
name, the handler the installed wrapper closes over. -/
structure ReplState (H O : Type) where
  customMethods : List (String × MethodEntry H O)
  context : List (String × H)
  serverStarted : Bool
  commands : List String
deriving DecidableEq, Repr

/-- State of `new Repl(tsCompiler)`: empty registry, no server. -/
def initialRepl (H O : Type) : ReplState H O :=
  { customMethods := [], context := [], serverStarted := false, commands := [] }

/-- From `src/src/Repl.ts` lines 246-255: `addMethod` stores
`{ handler, options }` under `methodName` in the `customMethods` object,
overwriting any existing entry; it touches nothing else. -/
def addMethod {H O : Type} (s : ReplState H O) (methodName : String)
    (handler : H) (options : O) : ReplState H O :=
  { s with customMethods := setKey s.customMethods methodName ⟨handler, options⟩ }

/-- From `src/src/Repl.ts` lines 194-200: `registerCustomMethods` iterates
`Object.entries(this.customMethods)` and assigns, for each entry, a wrapper
over its handler onto `this.server.context[methodName]`. -/
def registerCustomMethods {H O : Type} (s : ReplState H O) : ReplState H O :=
  { s with
      context := s.customMethods.foldl (fun ctx p => setKey ctx p.1 p.2.handler) s.context }

/-- From `src/src/Repl.ts` lines 130-158: `startReplServer` creates the
underlying server (prompt, stdin/stdout wiring, `useGlobal`, the eval
function); on the modelled state it makes the server exist. -/
def startReplServer {H O : Type} (s : ReplState H O) : ReplState H O :=
  { s with serverStarted := true }

/-- From `src/src/Repl.ts` lines 172-186: `defineCustomCommands` defines the
`customApi` dot-command on the server. -/
def defineCustomCommands {H O : Type} (s : ReplState H O) : ReplState H O :=
  { s with commands := s.commands ++ ["customApi"] }

/-- From `src/src/Repl.ts` lines 206-226: `run` starts the server, then
registers the queued custom methods into the context, then defines the
custom commands. Nothing later in the class reads `customMethods` again. -/
def run {H O : Type} (s : ReplState H O) : ReplState H O :=
  defineCustomCommands (registerCustomMethods (startReplServer s))

/-! ## Helper lemmas -/

theorem lookupA_setKey_self {β : Type} (l : List (String × β)) (k : String) (v : β) :
    lookupA (setKey l k v) k = some v := by
  induction l with
  | nil => simp [setKey, lookupA]
  | cons p rest ih =>
      obtain ⟨k₀, w⟩ := p
      by_cases h : k₀ = k
      · simp [setKey, h, lookupA]
      · simp [setKey, h, lookupA, ih]

theorem lookupA_setKey_ne {β : Type} (l : List (String × β)) (k k₀ : String) (v : β)
    (h : k₀ ≠ k) : lookupA (setKey l k₀ v) k = lookupA l k := by
  induction l with
  | nil => simp [setKey, lookupA, h]
  | cons p rest ih =>
      obtain ⟨k₁, w⟩ := p
      by_cases h₁ : k₁ = k₀
      · subst h₁
        simp [setKey, lookupA, h]
      · simp [setKey, h₁, lookupA, ih]

theorem evaluateCode_preserves_binding {α : Type}
    (compile : String → String → Except JSError String)
    (run : String → Ctx α → ExecResult α) (k : String) (v : α)
    (hpres : ∀ code ctx, lookupA ctx k = some v → lookupA (run code ctx).ctx k = some v)
    (fileName code : String) (ctx : Ctx α) (h : lookupA ctx k = some v) :
    lookupA (evaluateCode compile run fileName code ctx).2 k = some v := by
  unfold evaluateCode
  cases hc : compile fileName code with
  | error e =>
      by_cases hr : isRecoverableError e <;> simp [hr, h]
  | ok compiledCode =>
      have hctx := hpres compiledCode ctx h
      dsimp only
      rcases hrun : run compiledCode ctx with ⟨res, ctx₂⟩
      rw [hrun] at hctx
      cases res with
      | error e =>
          by_cases hr : isRecoverableError e <;> simpa [hr] using hctx
      | ok v₂ => simpa using hctx

theorem runTurns_preserves_binding {α : Type}
    (compile : String → String → Except JSError String)
    (run : String → Ctx α → ExecResult α) (fileName : String) (k : String) (v : α)
    (hpres : ∀ code ctx, lookupA ctx k = some v → lookupA (run code ctx).ctx k = some v) :
    ∀ (turns : List String) (ctx : Ctx α), lookupA ctx k = some v →
      lookupA (runTurns compile run fileName turns ctx) k = some v := by
  intro turns
  induction turns with
  | nil => intro ctx h; exact h
  | cons t ts ih =>
      intro ctx h
      exact ih _ (evaluateCode_preserves_binding compile run k v hpres fileName t ctx h)

theorem runTurns_append {α : Type}
    (compile : String → String → Except JSError String)
    (run : String → Ctx α → ExecResult α) (fileName : String)
    (l₁ l₂ : List String) (ctx : Ctx α) :
    runTurns compile run fileName (l₁ ++ l₂) ctx =
      runTurns compile run fileName l₂ (runTurns compile run fileName l₁ ctx) := by
  induction l₁ generalizing ctx with
  | nil => rfl
  | cons t ts ih => simp [runTurns, ih]

/-! ## Claims -/

/-- C2: for every error value, `isRecoverableError` returns true if and only
if the error name equals "SyntaxError" and its message starts (case-sensitive
prefix match) with "Unexpected end of input" or "Unexpected token"; for every
other name/message pair it returns false. -/
theorem isRecoverableError_spec (e : JSError) :
    isRecoverableError e = true ↔
      (e.name = "SyntaxError" ∧
        (e.message.startsWith "Unexpected end of input" = true ∨
          e.message.startsWith "Unexpected token" = true)) := by
  unfold isRecoverableError
  by_cases h : e.name = "SyntaxError" <;> simp [h]

/-- C10: the recoverable-error classifier of `src/src/Repl.ts` and the one of
`src/unnamed/part_000` are extensionally equal: on every error value both
return the same boolean. -/
theorem classifier_variants_agree (e : JSError) :
    isRecoverableError e = isRecoverableError000 e := rfl

/-- C4: for every virtual filename and source text, `Compiler.compile` first
applies the top-level suspend-expression transform to the text and then
delegates to the injected compiler collaborator, handing it exactly the same
filename and the transformed text. Since the collaborator `tsCompile` is
universally quantified, the equation pins down the exact arguments of the
single delegated call, and that the delegated text is the transform of the
input (the transform step precedes the compile step). -/
theorem compilerCompile_delegates_transformed {β : Type}
    (pta : String → Option String) (tsCompile : String → String → β)
    (fileName code : String) :
    compilerCompile pta tsCompile fileName code =
      tsCompile fileName (statementTransform pta code) := rfl

/-- C5: for every input text containing no top-level suspend-and-resume
expression — i.e. on which the external rewrite returns null — the statement
transform returns the input unchanged. -/
theorem statementTransform_noop_without_await (pta : String → Option String)
    (code : String) (h : pta code = none) :
    statementTransform pta code = code := by
  simp [statementTransform, jsOr, h]

/-- Witness for C5 at the concrete input "1 + 1" with a rewrite that finds no
top-level suspend expression anywhere. -/
theorem statementTransform_noop_without_await_witness :
    (fun _ : String => (none : Option String)) "1 + 1" = none ∧
      statementTransform (fun _ : String => (none : Option String)) "1 + 1" = "1 + 1" :=
  ⟨rfl, statementTransform_noop_without_await (fun _ => none) "1 + 1" rfl⟩

/-- C6: the statement transform is idempotent: transforming the
already-transformed text re-derives it unchanged. The hypothesis is the
contract of the external rewrite (spec 4.2): its output executes the
suspension inside an implicitly created wrapper, so the transformed text
contains no further top-level suspend expression and the rewrite returns
null on it; the fallback `processTopLevelAwait(code) || code` then makes the
second pass the identity. -/
theorem statementTransform_idempotent (pta : String → Option String) (code : String)
    (h : pta (statementTransform pta code) = none) :
    statementTransform pta (statementTransform pta code) = statementTransform pta code := by
  have hdef : statementTransform pta (statementTransform pta code) =
      jsOr (pta (statementTransform pta code)) (statementTransform pta code) := rfl
  rw [hdef, h]
  rfl

/-- Witness for C6 at the concrete input "await 42" with a rewrite that wraps
a leading top-level await into an immediately-invoked wrapper and returns
null on anything else. -/
theorem statementTransform_idempotent_witness :
    (fun s : String => if s = "await 42" then some "(async () => (42))()" else none)
        (statementTransform
          (fun s : String => if s = "await 42" then some "(async () => (42))()" else none)
          "await 42") = none ∧
      statementTransform
          (fun s : String => if s = "await 42" then some "(async () => (42))()" else none)
          (statementTransform
            (fun s : String => if s = "await 42" then some "(async () => (42))()" else none)
            "await 42") =
        statementTransform
          (fun s : String => if s = "await 42" then some "(async () => (42))()" else none)
          "await 42" :=
  ⟨by decide,
    statementTransform_idempotent
      (fun s : String => if s = "await 42" then some "(async () => (42))()" else none)
      "await 42" (by decide)⟩

/-- C8: registering the same method name twice leaves exactly the second
handler/options pair in the registry (last write wins); `addMethod` is a
total function, so no error is raised on the collision. -/
theorem addMethod_last_write_wins {H O : Type} (s : ReplState H O) (n : String)
    (h₁ h₂ : H) (o₁ o₂ : O) :
    lookupA (addMethod (addMethod s n h₁ o₁) n h₂ o₂).customMethods n =
      some ⟨h₂, o₂⟩ := by
  simp [addMethod, lookupA_setKey_self]

/-- C7 counterexample: at the concrete input — a fresh `Repl`, `run()`, then
`addMethod "notify" 7 0` — the method is not bound into the execution
context: looking it up in the context yields nothing, refuting the claim
that a late registration still ends up bound. -/
theorem addMethod_after_run_not_bound :
    lookupA (addMethod (run (initialRepl Nat Nat)) "notify" 7 0).context "notify" =
      none := rfl

/-- C7 amended: calling `addMethod` after `run()` records the method in the
`customMethods` registry (overwriting any previous entry for that name) but
leaves the execution context untouched: the context is populated from the
registry only when `run()` invokes `registerCustomMethods`, so a late
registration is silently not exposed as a context binding. -/
theorem addMethod_after_run_registry_only {H O : Type} (s : ReplState H O)
    (n : String) (h : H) (o : O) :
    (addMethod (run s) n h o).context = (run s).context ∧
      lookupA (addMethod (run s) n h o).customMethods n = some ⟨h, o⟩ :=
  ⟨rfl, lookupA_setKey_self _ _ _⟩

/-- C9: on every invocation and every behaviour of the collaborators, each of
the two eval functions invokes its completion callback exactly once — whether
the turn succeeds, fails recoverably, or fails non-recoverably. -/
theorem callback_invoked_exactly_once {α : Type}
    (compile : String → String → Except JSError String)
    (run : String → Ctx α → ExecResult α) (fileName code : String) (ctx : Ctx α) :
    (evaluateCode compile run fileName code ctx).1.length = 1 ∧
      (evaluateCode000 run code ctx).1.length = 1 := by
  constructor
  · unfold evaluateCode
    cases hc : compile fileName code with
    | error e => by_cases hr : isRecoverableError e <;> simp [hr]
    | ok compiledCode =>
        dsimp only
        rcases hrun : run compiledCode ctx with ⟨res, ctx₂⟩
        cases res with
        | error e => by_cases hr : isRecoverableError e <;> simp [hr]
        | ok v => simp
  · unfold evaluateCode000
    rcases hrun : run code ctx with ⟨res, ctx₂⟩
    cases res with
    | error e => by_cases hr : isRecoverableError000 e <;> simp [hr]
    | ok v => simp

/-- A sandbox run on which every execution throws
`ReferenceError: x is not defined`, a non-recoverable error, leaving the
context untouched. -/
def throwingRun (_code : String) (ctx : Ctx Nat) : ExecResult Nat :=
  { result := .error ⟨"ReferenceError", "x is not defined"⟩, ctx := ctx }

/-- A compile collaborator that succeeds and returns the source unchanged. -/
def idCompile (_fileName code : String) : Except JSError String := .ok code

/-- C1 at the failing input: when execution throws the non-recoverable
`ReferenceError: x is not defined`, the `part_000` eval function falls
through its catch block and invokes `callback(null, undefined)` — reporting
success with an undefined result and never surfacing the error — whereas
the `src/src/Repl.ts` eval function invokes `callback(error, null)` as the
claim requires. -/
theorem evaluateCode000_swallows_terminal_error :
    (evaluateCode000 throwingRun "x" []).1 = [.success none] ∧
      (evaluateCode idCompile throwingRun "repl.ts" "x" []).1 =
        [.failure ⟨"ReferenceError", "x is not defined"⟩] := by
  constructor <;> rfl

/-- C3: the persistent execution context is never replaced or cleared
between turns. A binding present after the first n turns of a session — in
particular one introduced by a successful evaluation in turn n — is still
present after the first m turns for every m ≥ n, and hence visible to the
evaluation of every later turn, provided no intervening sandbox execution
removes it (the hypothesis on `run`): the loop only threads each turn's
output context into the next turn and never builds a fresh context. -/
theorem context_persists_across_turns {α : Type}
    (compile : String → String → Except JSError String)
    (run : String → Ctx α → ExecResult α) (fileName : String)
    (k : String) (v : α)
    (hpres : ∀ code ctx, lookupA ctx k = some v → lookupA (run code ctx).ctx k = some v)
    (turns : List String) (ctx₀ : Ctx α) (n m : Nat) (hnm : n ≤ m)
    (hbound : lookupA (runTurns compile run fileName (turns.take n) ctx₀) k = some v) :
    lookupA (runTurns compile run fileName (turns.take m) ctx₀) k = some v := by
  have hsplit : turns.take m = turns.take n ++ (turns.drop n).take (m - n) := by
    conv_lhs => rw [← Nat.add_sub_cancel' hnm]
    exact turns.take_add n (m - n)
  rw [hsplit, runTurns_append]
  exact runTurns_preserves_binding compile run fileName k v hpres _ _ hbound

/-- A sandbox on which the input `const x = 5` binds x to 5 in the shared
context and every other input leaves the context unchanged. -/
def bindingRun (code : String) (ctx : Ctx Nat) : ExecResult Nat :=
  if code = "const x = 5" then { result := .ok 0, ctx := setKey ctx "x" 5 }
  else { result := .ok 1, ctx := ctx }

/-- Witness for C3 at the concrete session submitting `const x = 5` in turn 1
and `x + 1` in turn 2: the binding introduced by turn 1 is visible after
turn 2. -/
theorem context_persists_across_turns_witness :
    ((1 ≤ 2 ∧
        lookupA (runTurns (fun _ c => Except.ok c) bindingRun "repl.ts"
          (["const x = 5", "x + 1"].take 1) []) "x" = some 5)) ∧
      lookupA (runTurns (fun _ c => Except.ok c) bindingRun "repl.ts"
        (["const x = 5", "x + 1"].take 2) []) "x" = some 5 :=
  ⟨⟨by decide, by decide⟩,
    context_persists_across_turns (fun _ c => Except.ok c) bindingRun "repl.ts" "x" 5
      (fun code ctx h => by
        unfold bindingRun
        split
        · exact lookupA_setKey_self ctx "x" 5
        · exact h)
      ["const x = 5", "x + 1"] [] 1 2 (by decide) (by decide)⟩

end Repl
